import Mathlib

/-!
Verification development for the `rust-mapcore` repository.

Shallow embedding of the sources:
* `src/lib.rs` — `Latitude`/`Longitude` (degree-valued `f64` newtypes, embedded
  directly as `ℝ`), `LatLon`, `LatLonRect`, `Point`, the angle normalization
  functions and `LatLon::antipode`;
* `src/projection.rs` — `StereographicProjection`;
* `src/equirectangular.rs` — `EquirectangularProjection`;
* `src/miller.rs` — `MillerCylindricalProjection`;
* `src/map.rs` — `ViewProjection`, `CombinedProjection` and `Map` (including
  `Map::new` and `Map::scroll`).

Floating-point (`f64`) arithmetic is embedded as exact real arithmetic.  The
one place where Lean's convention for real division (`a / 0 = 0`) deviates
from the IEEE-754 semantics the Rust code runs under is a quotient with a
zero divisor fed into `atan`; the helper `atanDiv` below spells out the IEEE
behaviour (`atan (±∞) = ±π/2`) for that composite, so that the embedded
normalization functions behave at the poles exactly as the floating-point
code does.
-/

namespace Mapcore

noncomputable section

open Real

/-- Rust `f64::to_radians`: multiply a degree value by `π / 180`. -/
def toRadians (d : ℝ) : ℝ := d * (Real.pi / 180)

/-- Rust `f64::to_degrees`: multiply a radian value by `180 / π`. -/
def toDegrees (r : ℝ) : ℝ := r * (180 / Real.pi)

/-- Model of the composite Rust expression `f64::atan(a / b)` under IEEE-754
semantics.  For `b ≠ 0` this is the real `arctan (a / b)`.  For `b = 0` the
IEEE quotient is `±∞` (taking the sign of `a`), and `atan (±∞) = ±π/2`;
Lean's junk value `a / 0 = 0` would instead give `arctan 0 = 0`, which is not
what the floating-point code computes, so this case is spelled out.  (For
`a = 0, b = 0` the code yields NaN; that case is unreachable in every use
below, because `sin` and `cos` of one angle are never both zero.) -/
def atanDiv (a b : ℝ) : ℝ :=
  if b = 0 then
    if 0 < a then Real.pi / 2 else if a < 0 then -(Real.pi / 2) else 0
  else Real.arctan (a / b)

/-- Model of Rust `f64::atan2(y, x)`: the argument angle of the point
`(x, y)`, which is `Complex.arg` of `x + y·i`.  `Complex.arg` agrees with
IEEE `atan2` at every point (both return `0` at the origin). -/
def atan2 (y x : ℝ) : ℝ := Complex.arg ⟨x, y⟩

/-- Model of Rust `f64::hypot(x, y)`: the euclidean norm `√(x² + y²)`. -/
def hypot (x y : ℝ) : ℝ := Real.sqrt (x ^ 2 + y ^ 2)

/-- `LatLon` (src/lib.rs:81): a latitude and a longitude, in degrees.  The
`Latitude`/`Longitude` newtypes are plain `f64` wrappers whose `Add`/`Sub`
are the underlying addition and subtraction, so both are embedded as `ℝ`. -/
@[ext]
structure LatLon where
  latitude : ℝ
  longitude : ℝ

/-- `Point<N>` (src/lib.rs:171): a 2-D coordinate pair. -/
@[ext]
structure Point (α : Type) where
  x : α
  y : α

/-- `Point::origin` (src/lib.rs:180). -/
def Point.origin : Point ℝ := ⟨0, 0⟩

/-- `impl Add for Point` (src/lib.rs:185): componentwise addition. -/
def Point.add (p q : Point ℝ) : Point ℝ := ⟨p.x + q.x, p.y + q.y⟩

/-- `impl Sub for Point` (src/lib.rs:194): componentwise subtraction. -/
def Point.sub (p q : Point ℝ) : Point ℝ := ⟨p.x - q.x, p.y - q.y⟩

/-- `impl Mul<N> for Point` (src/lib.rs:203): uniform scaling. -/
def Point.scale (p : Point ℝ) (s : ℝ) : Point ℝ := ⟨p.x * s, p.y * s⟩

/-- `normalize_latitude` (src/lib.rs:157): fold a latitude into `[-90, 90]`
through `atan(sin θ / |cos θ|)`, `θ` the latitude in radians. -/
def normalize_latitude (lat : ℝ) : ℝ :=
  toDegrees (atanDiv (Real.sin (toRadians lat)) |Real.cos (toRadians lat)|)

/-- `normalize_longitude` (src/lib.rs:163): wrap a longitude into
`(-180, 180]` through `atan2(sin θ, cos θ)`, `θ` the longitude in radians. -/
def normalize_longitude (lon : ℝ) : ℝ :=
  toDegrees (atan2 (Real.sin (toRadians lon)) (Real.cos (toRadians lon)))

/-- `LatLon::antipode` (src/lib.rs:90): add 180° to both components and
normalize each through the spherical normalization functions. -/
def LatLon.antipode (p : LatLon) : LatLon :=
  { latitude := normalize_latitude (p.latitude + 180)
    longitude := normalize_longitude (p.longitude + 180) }

/-- `LatLonRect` (src/lib.rs:102): four scalar bounds. -/
structure LatLonRect where
  north : ℝ
  south : ℝ
  east : ℝ
  west : ℝ

/-- `LatLonRect::from_bounds` (src/lib.rs:114): stores the four arguments
verbatim, with no validation. -/
def LatLonRect.from_bounds (north south east west : ℝ) : LatLonRect :=
  { north := north, south := south, east := east, west := west }

/-- `LatLonRect::from_corners` (src/lib.rs:122). -/
def LatLonRect.from_corners (northwest southeast : LatLon) : LatLonRect :=
  { north := northwest.latitude
    south := southeast.latitude
    east := southeast.longitude
    west := northwest.longitude }

/-- `LatLonRect::set_north` (src/lib.rs:142): overwrite the north bound. -/
def LatLonRect.set_north (r : LatLonRect) (n : ℝ) : LatLonRect := { r with north := n }

/-- `LatLonRect::set_south` (src/lib.rs:145). -/
def LatLonRect.set_south (r : LatLonRect) (s : ℝ) : LatLonRect := { r with south := s }

/-- `LatLonRect::set_east` (src/lib.rs:148). -/
def LatLonRect.set_east (r : LatLonRect) (e : ℝ) : LatLonRect := { r with east := e }

/-- `LatLonRect::set_west` (src/lib.rs:151). -/
def LatLonRect.set_west (r : LatLonRect) (w : ℝ) : LatLonRect := { r with west := w }

/-- The `LatLonRect` values reachable through the public interface: built by
`from_bounds` or `from_corners` and mutated by any sequence of setter calls. -/
inductive LatLonRect.Reachable : LatLonRect → Prop
  | from_bounds (n s e w : ℝ) : LatLonRect.Reachable (LatLonRect.from_bounds n s e w)
  | from_corners (nw se : LatLon) : LatLonRect.Reachable (LatLonRect.from_corners nw se)
  | set_north (r : LatLonRect) (n : ℝ) :
      LatLonRect.Reachable r → LatLonRect.Reachable (r.set_north n)
  | set_south (r : LatLonRect) (s : ℝ) :
      LatLonRect.Reachable r → LatLonRect.Reachable (r.set_south s)
  | set_east (r : LatLonRect) (e : ℝ) :
      LatLonRect.Reachable r → LatLonRect.Reachable (r.set_east e)
  | set_west (r : LatLonRect) (w : ℝ) :
      LatLonRect.Reachable r → LatLonRect.Reachable (r.set_west w)

/-- The `LatLonRect` values built and mutated through bound-respecting calls
only: each constructor argument is ordered against its counterpart and each
setter argument is ordered against the current opposite bound. -/
inductive LatLonRect.OrderedReachable : LatLonRect → Prop
  | from_bounds (n s e w : ℝ) : s ≤ n → w ≤ e →
      LatLonRect.OrderedReachable (LatLonRect.from_bounds n s e w)
  | from_corners (nw se : LatLon) :
      se.latitude ≤ nw.latitude → nw.longitude ≤ se.longitude →
      LatLonRect.OrderedReachable (LatLonRect.from_corners nw se)
  | set_north (r : LatLonRect) (n : ℝ) :
      LatLonRect.OrderedReachable r → r.south ≤ n →
      LatLonRect.OrderedReachable (r.set_north n)
  | set_south (r : LatLonRect) (s : ℝ) :
      LatLonRect.OrderedReachable r → s ≤ r.north →
      LatLonRect.OrderedReachable (r.set_south s)
  | set_east (r : LatLonRect) (e : ℝ) :
      LatLonRect.OrderedReachable r → r.west ≤ e →
      LatLonRect.OrderedReachable (r.set_east e)
  | set_west (r : LatLonRect) (w : ℝ) :
      LatLonRect.OrderedReachable r → w ≤ r.east →
      LatLonRect.OrderedReachable (r.set_west w)

/-- The `Projection` trait (src/projection.rs:5), as carried by
`Box<Projection>` inside `Map`: a pair of transforms between spherical and
map coordinates. -/
structure Projection where
  project : LatLon → Point ℝ
  unproject : Point ℝ → LatLon

/-- `StereographicProjection` (src/projection.rs:13): holds the projection
point. -/
structure StereographicProjection where
  projection_point : LatLon

/-- `StereographicProjection::project` (src/projection.rs:36): zenith and
azimuth are the plain latitude and longitude differences from the projection
point (not a great-circle separation), then `r = sin z / (1 - cos z)`,
`θ = azimuth`, converted to rectangular coordinates. -/
def StereographicProjection.project (sp : StereographicProjection)
    (position : LatLon) : Point ℝ :=
  let zenith_radians := toRadians (position.latitude - sp.projection_point.latitude)
  let azimuth_radians := toRadians (position.longitude - sp.projection_point.longitude)
  let r := Real.sin zenith_radians / (1 - Real.cos zenith_radians)
  let θ := azimuth_radians
  ⟨r * Real.cos θ, r * Real.sin θ⟩

/-- `StereographicProjection::unproject` (src/projection.rs:49): polar
decomposition with `r = hypot x y ≥ 0`, `zenith = 2·atan(1/r)` (the quotient
`1/r` fed to `atan` follows IEEE semantics, see `atanDiv`), then the
projection-point offset is added back and both axes are normalized. -/
def StereographicProjection.unproject (sp : StereographicProjection)
    (position : Point ℝ) : LatLon :=
  let r := hypot position.x position.y
  let θ := atan2 position.y position.x
  let zenith_radians := 2 * atanDiv 1 r
  let azimuth_radians := θ
  { latitude := normalize_latitude (toDegrees zenith_radians + sp.projection_point.latitude)
    longitude := normalize_longitude (toDegrees azimuth_radians + sp.projection_point.longitude) }

/-- `EquirectangularProjection::project` (src/equirectangular.rs:10):
longitude becomes x and latitude becomes y, verbatim. -/
def EquirectangularProjection.project (position : LatLon) : Point ℝ :=
  ⟨position.longitude, position.latitude⟩

/-- `EquirectangularProjection::unproject` (src/equirectangular.rs:16):
y becomes latitude and x becomes longitude, verbatim. -/
def EquirectangularProjection.unproject (position : Point ℝ) : LatLon :=
  { latitude := position.y, longitude := position.x }

/-- `MillerCylindricalProjection::project` (src/miller.rs:10): x is the
longitude verbatim and `y = (5/4)·asinh(tan((4/5)·latitude))` (the code feeds
the degree value to `tan` directly, without converting to radians). -/
def MillerCylindricalProjection.project (position : LatLon) : Point ℝ :=
  ⟨position.longitude, (5 / 4) * Real.arsinh (Real.tan ((4 / 5) * position.latitude))⟩

/-- `MillerCylindricalProjection::unproject` (src/miller.rs:17): the
unprojected latitude is the input y verbatim, and the unprojected longitude
is `(5/4)·atan(sinh((4/5)·y))`; the input x is never read. -/
def MillerCylindricalProjection.unproject (position : Point ℝ) : LatLon :=
  { latitude := position.y
    longitude := (5 / 4) * Real.arctan (Real.sinh ((4 / 5) * position.y)) }

/-- The `StereographicProjection` packaged as a `Projection` trait object. -/
def StereographicProjection.asProjection (sp : StereographicProjection) : Projection :=
  ⟨sp.project, sp.unproject⟩

/-- The `EquirectangularProjection` packaged as a `Projection` trait object. -/
def EquirectangularProjection.asProjection : Projection :=
  ⟨EquirectangularProjection.project, EquirectangularProjection.unproject⟩

/-- `ViewProjection` (src/map.rs:128): a center in map coordinates and a
zoom ratio. -/
structure ViewProjection where
  center : Point ℝ
  zoom : ℝ

/-- The half-viewport translation used by `ViewProjection`: the `i32` width
and height are halved with truncating integer division (Rust `/` on `i32`,
which is `Int.tdiv` in Lean) and only then treated as real coordinates. -/
def halfViewport (viewport_width viewport_height : ℤ) : Point ℝ :=
  ⟨((Int.tdiv viewport_width 2 : ℤ) : ℝ), ((Int.tdiv viewport_height 2 : ℤ) : ℝ)⟩

/-- `ViewProjection::project` (src/map.rs:137): subtract the center, scale by
the zoom, shift by the half viewport. -/
def ViewProjection.project (vp : ViewProjection) (map : Point ℝ)
    (viewport_width viewport_height : ℤ) : Point ℝ :=
  ((map.sub vp.center).scale vp.zoom).add (halfViewport viewport_width viewport_height)

/-- `ViewProjection::unproject` (src/map.rs:148): subtract the half viewport,
scale by the inverse zoom, add the center. -/
def ViewProjection.unproject (vp : ViewProjection) (screen : Point ℝ)
    (viewport_width viewport_height : ℤ) : Point ℝ :=
  ((screen.sub (halfViewport viewport_width viewport_height)).scale (1 / vp.zoom)).add vp.center

/-- `Map` (src/map.rs:21): one projection, one view projection, the layers
and the viewport geometry in pixels.  Layers are trait objects the core never
inspects, so the layer list is carried at an arbitrary element type `L`. -/
structure Map (L : Type) where
  projection : Projection
  view_projection : ViewProjection
  layers : List L
  x : ℤ
  y : ℤ
  width : ℤ
  height : ℤ

/-- `Map::new` (src/map.rs:42): center at the map-space origin, zoom 1, no
layers. -/
def Map.new {L : Type} (projection : Projection) (x y width height : ℤ) : Map L :=
  { projection := projection
    view_projection := { center := Point.origin, zoom := 1 }
    layers := []
    x := x, y := y, width := width, height := height }

/-- `Map::scroll` (src/map.rs:109): unproject the pixel displacement `(dx, dy)`
through the view projection (as an absolute screen point) and add the result
to the view center. -/
def Map.scroll {L : Type} (m : Map L) (dx dy : ℤ) : Map L :=
  let map_delta := m.view_projection.unproject ⟨(dx : ℝ), (dy : ℝ)⟩ m.width m.height
  { m with view_projection :=
      { m.view_projection with center := m.view_projection.center.add map_delta } }

/-- `CombinedProjection::project` (src/map.rs:185): sphere to map coordinates
through the inner projection, then map to display coordinates through the
view projection. -/
def CombinedProjection.project (projection : Projection)
    (view_projection : ViewProjection) (viewport_width viewport_height : ℤ)
    (position : LatLon) : Point ℝ :=
  view_projection.project (projection.project position) viewport_width viewport_height

/-- The pixel-space projection `Map::draw` (src/map.rs:117) hands to every
layer: the `CombinedProjection` built from the map's current projection, view
projection and viewport size. -/
def Map.drawnProjection {L : Type} (m : Map L) : LatLon → Point ℝ :=
  fun position =>
    CombinedProjection.project m.projection m.view_projection m.width m.height position

/-- A concrete map used to evaluate `Map::scroll`: a freshly constructed map
(center at the map-space origin, zoom 1, per `Map::new`) over the
equirectangular projection with a 100 × 100 pixel viewport. -/
def exampleMap : Map Unit :=
  Map.new EquirectangularProjection.asProjection 0 0 100 100

end

/-! ## Degree and radian conversion lemmas -/

theorem toDegrees_toRadians (d : ℝ) : toDegrees (toRadians d) = d := by
  unfold toDegrees toRadians
  field_simp

theorem toDegrees_pi_div_two : toDegrees (Real.pi / 2) = 90 := by
  have hpi := Real.pi_ne_zero
  unfold toDegrees
  field_simp
  ring

theorem toDegrees_neg_pi_div_two : toDegrees (-(Real.pi / 2)) = -90 := by
  unfold toDegrees
  rw [neg_mul]
  rw [show Real.pi / 2 * (180 / Real.pi) = toDegrees (Real.pi / 2) from rfl,
    toDegrees_pi_div_two]

theorem toDegrees_pi : toDegrees Real.pi = 180 := by
  have hpi := Real.pi_ne_zero
  unfold toDegrees
  field_simp

theorem toDegrees_zero : toDegrees 0 = 0 := by
  unfold toDegrees
  rw [zero_mul]

/-! ## Normalization lemmas -/

/-- On the open interval `(-90, 90)` the latitude angle has positive cosine,
so the folding formula reduces to `arctan (tan θ) = θ`. -/
theorem normalize_latitude_id {d : ℝ} (h1 : -90 < d) (h2 : d < 90) :
    normalize_latitude d = d := by
  have hscale : (0 : ℝ) < Real.pi / 180 := by positivity
  have hl : -(Real.pi / 2) < toRadians d := by
    have h := mul_lt_mul_of_pos_right h1 hscale
    unfold toRadians
    linarith
  have hr : toRadians d < Real.pi / 2 := by
    have h := mul_lt_mul_of_pos_right h2 hscale
    unfold toRadians
    linarith
  have hcos : 0 < Real.cos (toRadians d) := Real.cos_pos_of_mem_Ioo ⟨hl, hr⟩
  unfold normalize_latitude atanDiv
  rw [abs_of_pos hcos, if_neg (ne_of_gt hcos), ← Real.tan_eq_sin_div_cos,
    Real.arctan_tan hl hr, toDegrees_toRadians]

theorem normalize_latitude_90 : normalize_latitude 90 = 90 := by
  have h : toRadians (90 : ℝ) = Real.pi / 2 := by
    unfold toRadians
    ring
  unfold normalize_latitude atanDiv
  rw [h, Real.cos_pi_div_two, Real.sin_pi_div_two, abs_zero, if_pos rfl,
    if_pos one_pos, toDegrees_pi_div_two]

theorem normalize_latitude_neg90 : normalize_latitude (-90) = -90 := by
  have h : toRadians (-90 : ℝ) = -(Real.pi / 2) := by
    unfold toRadians
    ring
  unfold normalize_latitude atanDiv
  rw [h, Real.cos_neg, Real.cos_pi_div_two, Real.sin_neg, Real.sin_pi_div_two,
    abs_zero, if_pos rfl, if_neg (by norm_num), if_pos (by norm_num),
    toDegrees_neg_pi_div_two]

/-- `normalize_latitude` is the identity on the whole closed range
`[-90, 90]`, the poles included (at the poles the IEEE quotient is `±∞` and
`atan (±∞) = ±π/2`). -/
theorem normalize_latitude_id_of_range {d : ℝ} (h1 : -90 ≤ d) (h2 : d ≤ 90) :
    normalize_latitude d = d := by
  rcases eq_or_lt_of_le h1 with he | h1
  · rw [← he]
    exact normalize_latitude_neg90
  rcases eq_or_lt_of_le h2 with he | h2
  · rw [he]
    exact normalize_latitude_90
  exact normalize_latitude_id h1 h2

/-- `atan2` recovers an angle of `(-π, π]` from its sine and cosine. -/
theorem atan2_sin_cos {θ : ℝ} (h : θ ∈ Set.Ioc (-Real.pi) Real.pi) :
    atan2 (Real.sin θ) (Real.cos θ) = θ := by
  unfold atan2
  have hc : (⟨Real.cos θ, Real.sin θ⟩ : ℂ) =
      Complex.cos θ + Complex.sin θ * Complex.I := by
    apply Complex.ext <;> simp [Complex.cos_ofReal_re, Complex.sin_ofReal_re]
  rw [hc, Complex.arg_cos_add_sin_mul_I h]

/-- `normalize_longitude` is the identity on `(-180, 180]`. -/
theorem normalize_longitude_id {d : ℝ} (h1 : -180 < d) (h2 : d ≤ 180) :
    normalize_longitude d = d := by
  have hscale : (0 : ℝ) < Real.pi / 180 := by positivity
  have hl : -Real.pi < toRadians d := by
    have h := mul_lt_mul_of_pos_right h1 hscale
    unfold toRadians
    linarith
  have hr : toRadians d ≤ Real.pi := by
    have h := mul_le_mul_of_nonneg_right h2 (le_of_lt hscale)
    unfold toRadians
    linarith
  unfold normalize_longitude
  rw [atan2_sin_cos ⟨hl, hr⟩, toDegrees_toRadians]

theorem normalize_latitude_270 : normalize_latitude 270 = -90 := by
  have h : toRadians (270 : ℝ) = -(Real.pi / 2) + 2 * Real.pi := by
    unfold toRadians
    ring
  unfold normalize_latitude atanDiv
  rw [h, Real.cos_add_two_pi, Real.sin_add_two_pi, Real.cos_neg,
    Real.cos_pi_div_two, Real.sin_neg, Real.sin_pi_div_two, abs_zero,
    if_pos rfl, if_neg (by norm_num), if_pos (by norm_num),
    toDegrees_neg_pi_div_two]

theorem normalize_latitude_180 : normalize_latitude 180 = 0 := by
  have h : toRadians (180 : ℝ) = Real.pi := by
    unfold toRadians
    field_simp
  unfold normalize_latitude atanDiv
  rw [h, Real.cos_pi, Real.sin_pi, abs_neg, abs_one, if_neg one_ne_zero]
  norm_num [Real.arctan_zero, toDegrees_zero]

theorem normalize_longitude_180 : normalize_longitude 180 = 180 :=
  normalize_longitude_id (by norm_num) le_rfl

theorem normalize_longitude_270 : normalize_longitude 270 = -90 := by
  have h : toRadians (270 : ℝ) = -(Real.pi / 2) + 2 * Real.pi := by
    unfold toRadians
    ring
  have hmem : -(Real.pi / 2) ∈ Set.Ioc (-Real.pi) Real.pi := by
    constructor <;> nlinarith [Real.pi_pos]
  unfold normalize_longitude
  rw [h, Real.cos_add_two_pi, Real.sin_add_two_pi, atan2_sin_cos hmem,
    toDegrees_neg_pi_div_two]

theorem normalize_latitude_225 : normalize_latitude 225 = -45 := by
  have h : toRadians (225 : ℝ) = Real.pi / 4 + Real.pi := by
    unfold toRadians
    ring
  have hs2 : (0 : ℝ) < Real.sqrt 2 / 2 := by positivity
  unfold normalize_latitude atanDiv
  rw [h, Real.cos_add_pi, Real.sin_add_pi, Real.cos_pi_div_four,
    Real.sin_pi_div_four, abs_neg, abs_of_pos hs2, if_neg (ne_of_gt hs2)]
  rw [show -(Real.sqrt 2 / 2) / (Real.sqrt 2 / 2) = -1 by
    rw [neg_div, div_self (ne_of_gt hs2)]]
  rw [show (-1 : ℝ) = -(1 : ℝ) from rfl, Real.arctan_neg, Real.arctan_one]
  have hpi := Real.pi_ne_zero
  unfold toDegrees
  field_simp
  ring

/-! ## Claim C7: normalization is the identity on the canonical ranges -/

/-- C7: for every latitude in `[-90, 90]` and every longitude in
`(-180, 180]`, the normalization functions return their input unchanged,
the endpoints `90`, `-90` and `180` included. -/
theorem C7_normalize_identity (lat lon : ℝ) (h1 : -90 ≤ lat) (h2 : lat ≤ 90)
    (h3 : -180 < lon) (h4 : lon ≤ 180) :
    normalize_latitude lat = lat ∧ normalize_longitude lon = lon :=
  ⟨normalize_latitude_id_of_range h1 h2, normalize_longitude_id h3 h4⟩

/-- Witness for C7: both normalizations evaluated at the extreme canonical
values `90` and `180`. -/
theorem C7_normalize_identity_witness :
    normalize_latitude 90 = 90 ∧ normalize_longitude 180 = 180 :=
  C7_normalize_identity 90 180 (by norm_num) le_rfl (by norm_num) le_rfl

/-! ## Claim C8: the antipode computation -/

/-- C8: `LatLon::antipode` adds 180° to both components and normalizes each
through the spherical normalization functions; the antipode of `{90, 0}` has
latitude within 0.001° of `-90`, the antipode of `{-90, 0}` has latitude
within 0.001° of `90`, the antipode of `{0, 0}` is within 0.001° of
`{0, 180}` componentwise, and the antipode of `{0, 90}` is within 0.001° of
`{0, -90}` componentwise (all four are in fact exact). -/
theorem C8_antipode :
    (∀ p : LatLon, p.antipode =
      ⟨normalize_latitude (p.latitude + 180), normalize_longitude (p.longitude + 180)⟩) ∧
    |(LatLon.antipode ⟨90, 0⟩).latitude - (-90)| < 0.001 ∧
    |(LatLon.antipode ⟨-90, 0⟩).latitude - 90| < 0.001 ∧
    |(LatLon.antipode ⟨0, 0⟩).latitude - 0| < 0.001 ∧
    |(LatLon.antipode ⟨0, 0⟩).longitude - 180| < 0.001 ∧
    |(LatLon.antipode ⟨0, 90⟩).latitude - 0| < 0.001 ∧
    |(LatLon.antipode ⟨0, 90⟩).longitude - (-90)| < 0.001 := by
  refine ⟨fun _ => rfl, ?_, ?_, ?_, ?_, ?_, ?_⟩ <;>
    simp only [LatLon.antipode] <;>
    norm_num [normalize_latitude_270, normalize_latitude_90,
      normalize_latitude_180, normalize_longitude_180, normalize_longitude_270]

/-! ## Claim C4: Miller cylindrical projection formulas -/

/-- C4: `MillerCylindricalProjection::project` maps a position to
`x = longitude` verbatim and `y = (5/4)·asinh(tan((4/5)·latitude))`, and
`unproject` maps `(x, y)` to the latitude assigned directly from the input
`y` and the longitude `(5/4)·atan(sinh((4/5)·y))`; the input `x` is never
used (unprojecting two points with the same `y` gives the same result
whatever their `x`). -/
theorem C4_miller_formulas :
    (∀ p : LatLon, MillerCylindricalProjection.project p =
      ⟨p.longitude, (5 / 4) * Real.arsinh (Real.tan ((4 / 5) * p.latitude))⟩) ∧
    (∀ q : Point ℝ, MillerCylindricalProjection.unproject q =
      { latitude := q.y, longitude := (5 / 4) * Real.arctan (Real.sinh ((4 / 5) * q.y)) }) ∧
    (∀ x1 x2 yy : ℝ, MillerCylindricalProjection.unproject ⟨x1, yy⟩ =
      MillerCylindricalProjection.unproject ⟨x2, yy⟩) :=
  ⟨fun _ => rfl, fun _ => rfl, fun _ _ _ => rfl⟩

/-! ## Claim C5: equirectangular projection is an exact mutual inverse pair -/

/-- C5: `EquirectangularProjection::project` returns `(longitude, latitude)`
verbatim, and `project`/`unproject` are exact mutual inverses on every
point. -/
theorem C5_equirectangular_inverse :
    (∀ p : LatLon,
      EquirectangularProjection.unproject (EquirectangularProjection.project p) = p) ∧
    (∀ q : Point ℝ,
      EquirectangularProjection.project (EquirectangularProjection.unproject q) = q) ∧
    (∀ p : LatLon, EquirectangularProjection.project p = ⟨p.longitude, p.latitude⟩) :=
  ⟨fun _ => rfl, fun _ => rfl, fun _ => rfl⟩

/-! ## Claim C6: view projection round trip -/

/-- C6: for every center, every strictly positive zoom, every viewport width
and height and every map point `p`, `ViewProjection::unproject` recovers `p`
from `ViewProjection::project` of `p` exactly (in real arithmetic). -/
theorem C6_view_projection_roundtrip (c : Point ℝ) (zoom : ℝ) (hz : 0 < zoom)
    (w h : ℤ) (p : Point ℝ) :
    ViewProjection.unproject ⟨c, zoom⟩ (ViewProjection.project ⟨c, zoom⟩ p w h) w h = p := by
  have hz0 : zoom ≠ 0 := ne_of_gt hz
  unfold ViewProjection.unproject ViewProjection.project Point.add Point.sub Point.scale
  ext <;> (simp only []; field_simp)

/-- Witness for C6: the round trip evaluated at center `(0,0)`, zoom `1`,
viewport `101 × 7` and map point `(3,4)`. -/
theorem C6_view_projection_roundtrip_witness :
    ViewProjection.unproject ⟨⟨0, 0⟩, 1⟩
      (ViewProjection.project ⟨⟨0, 0⟩, 1⟩ ⟨3, 4⟩ 101 7) 101 7 = ⟨3, 4⟩ :=
  C6_view_projection_roundtrip ⟨0, 0⟩ 1 one_pos 101 7 ⟨3, 4⟩

/-! ## Claim C9: the LatLonRect ordering invariant -/

/-- Counterexample to C9: `from_bounds 0 10 0 10` is reachable through the
public interface (it is a direct constructor call) yet has `north < south`
and `east < west`: no constructor or setter validates the ordering. -/
theorem C9_reachable_unordered :
    LatLonRect.Reachable (LatLonRect.from_bounds 0 10 0 10) ∧
    ¬((LatLonRect.from_bounds 0 10 0 10).south ≤ (LatLonRect.from_bounds 0 10 0 10).north) ∧
    ¬((LatLonRect.from_bounds 0 10 0 10).west ≤ (LatLonRect.from_bounds 0 10 0 10).east) := by
  refine ⟨LatLonRect.Reachable.from_bounds 0 10 0 10, ?_, ?_⟩ <;>
    norm_num [LatLonRect.from_bounds]

/-- C9 (amended): a `LatLonRect` built and mutated through bound-respecting
calls only (each constructor handed ordered bounds, each setter handed a
value ordered against the current opposite bound) satisfies `north ≥ south`
and `east ≥ west`; the constructors and setters themselves store their
arguments verbatim and enforce nothing. -/
theorem C9_ordered_reachable_invariant (r : LatLonRect)
    (h : LatLonRect.OrderedReachable r) : r.south ≤ r.north ∧ r.west ≤ r.east := by
  induction h with
  | from_bounds n s e w hn he => exact ⟨hn, he⟩
  | from_corners nw se hn he => exact ⟨hn, he⟩
  | set_north r n hr hn ih => exact ⟨hn, ih.2⟩
  | set_south r s hr hs ih => exact ⟨hs, ih.2⟩
  | set_east r e hr he ih => exact ⟨ih.1, he⟩
  | set_west r w hr hw ih => exact ⟨ih.1, hw⟩

/-- Witness for the amended C9: `from_bounds 10 0 20 5` is built from ordered
bounds and satisfies the invariant. -/
theorem C9_ordered_reachable_invariant_witness :
    (LatLonRect.from_bounds 10 0 20 5).south ≤ (LatLonRect.from_bounds 10 0 20 5).north ∧
    (LatLonRect.from_bounds 10 0 20 5).west ≤ (LatLonRect.from_bounds 10 0 20 5).east :=
  C9_ordered_reachable_invariant _
    (LatLonRect.OrderedReachable.from_bounds 10 0 20 5 (by norm_num) (by norm_num))

/-! ## Claim C10: scroll touches only the view center -/

/-- C10: `Map::scroll` changes only the view projection's center: the zoom
level, the viewport geometry, the projection and the layer list of the map
are all unchanged. -/
theorem C10_scroll_frame {L : Type} (m : Map L) (dx dy : ℤ) :
    (m.scroll dx dy).projection = m.projection ∧
    (m.scroll dx dy).view_projection.zoom = m.view_projection.zoom ∧
    (m.scroll dx dy).layers = m.layers ∧
    (m.scroll dx dy).x = m.x ∧
    (m.scroll dx dy).y = m.y ∧
    (m.scroll dx dy).width = m.width ∧
    (m.scroll dx dy).height = m.height :=
  ⟨rfl, rfl, rfl, rfl, rfl, rfl, rfl⟩

/-! ## Further trigonometric helper lemmas -/

theorem toRadians_180 : toRadians 180 = Real.pi := by
  unfold toRadians
  field_simp

/-- The euclidean norm of a scaled direction vector is the absolute scale. -/
theorem hypot_scale_cos_sin (r θ : ℝ) :
    hypot (r * Real.cos θ) (r * Real.sin θ) = |r| := by
  unfold hypot
  have h : (r * Real.cos θ) ^ 2 + (r * Real.sin θ) ^ 2 = r ^ 2 := by
    calc (r * Real.cos θ) ^ 2 + (r * Real.sin θ) ^ 2
        = r ^ 2 * (Real.sin θ ^ 2 + Real.cos θ ^ 2) := by ring
      _ = r ^ 2 := by rw [Real.sin_sq_add_cos_sq, mul_one]
  rw [h, Real.sqrt_sq_eq_abs]

/-- For `0 < s < π` the stereographic radius `sin s / (1 - cos s)` is the
cotangent of the half angle, and unprojection recovers `s`:
`2·atan(1 / (sin s / (1 - cos s))) = s`. -/
theorem two_atanDiv_inv_cot {s : ℝ} (h0 : 0 < s) (hπ : s < Real.pi) :
    2 * atanDiv 1 (Real.sin s / (1 - Real.cos s)) = s := by
  have hpi := Real.pi_pos
  have hsin : 0 < Real.sin s := Real.sin_pos_of_pos_of_lt_pi h0 hπ
  have hcos : Real.cos s < 1 := by
    have h1 : (0 : ℝ) ∈ Set.Icc 0 Real.pi := ⟨le_refl 0, le_of_lt hpi⟩
    have h2 : s ∈ Set.Icc 0 Real.pi := ⟨le_of_lt h0, le_of_lt hπ⟩
    have := Real.strictAntiOn_cos h1 h2 h0
    simpa [Real.cos_zero] using this
  have hdenom : 0 < 1 - Real.cos s := by linarith
  have hb : 0 < Real.sin s / (1 - Real.cos s) := div_pos hsin hdenom
  have hsinh : 0 < Real.sin (s / 2) :=
    Real.sin_pos_of_pos_of_lt_pi (by linarith) (by linarith)
  have hcosh : 0 < Real.cos (s / 2) :=
    Real.cos_pos_of_mem_Ioo ⟨by linarith, by linarith⟩
  have hcos_id : Real.cos s = 1 - 2 * Real.sin (s / 2) ^ 2 := by
    have h := Real.cos_two_mul (s / 2)
    have hpy := Real.sin_sq_add_cos_sq (s / 2)
    rw [show 2 * (s / 2) = s by ring] at h
    linarith
  have hsin_id : Real.sin s = 2 * Real.sin (s / 2) * Real.cos (s / 2) := by
    have h := Real.sin_two_mul (s / 2)
    rw [show 2 * (s / 2) = s by ring] at h
    exact h
  unfold atanDiv
  rw [if_neg (ne_of_gt hb), one_div_div]
  have hq : (1 - Real.cos s) / Real.sin s = Real.tan (s / 2) := by
    rw [hcos_id, hsin_id, Real.tan_eq_sin_div_cos]
    field_simp
    ring
  rw [hq, Real.arctan_tan (by linarith) (by linarith)]
  ring

/-! ## Claim C1: scroll is not a pixel shift of the rendered output -/

/-- C1 (failing evaluation): on a fresh 100 × 100 map over the
equirectangular projection, scrolling by `(0, 0)` pixels shifts the combined
projection handed to layers by `(50, 50)` pixels, not by the pixel-equivalent
of `(0, 0)`: `Map::scroll` passes `(dx, dy)` to `ViewProjection::unproject`
as an absolute screen point, so the view center also absorbs the unrelated
`center - half_viewport / zoom` term. -/
theorem C1_scroll_zero_shifts_output :
    Point.sub ((exampleMap.scroll 0 0).drawnProjection ⟨0, 0⟩)
      (exampleMap.drawnProjection ⟨0, 0⟩) = ⟨50, 50⟩ ∧
    (⟨50, 50⟩ : Point ℝ) ≠ (⟨0, 0⟩ : Point ℝ) := by
  have htd : (Int.tdiv (100 : ℤ) 2 : ℤ) = 50 := by decide
  constructor
  · simp only [exampleMap, Map.new, Map.scroll, Map.drawnProjection,
      CombinedProjection.project, ViewProjection.project, ViewProjection.unproject,
      EquirectangularProjection.asProjection, EquirectangularProjection.project,
      EquirectangularProjection.unproject, Point.origin, Point.add, Point.sub,
      Point.scale, halfViewport, htd]
    norm_num
  · intro hcon
    have hx := congrArg Point.x hcon
    norm_num at hx

/-! ## Claim C2: projecting the antipode of the projection point -/

/-- C2 (failing evaluation): for the projection point `{45, 0}`, the
stereographic projection of its exact antipode (`{-45, 180}`) is the plane
point `(1, 0)`, not `(0, 0)`: the zenith is the plain latitude difference
`-90°` rather than the 180° great-circle separation, so
`r = sin(-90°) / (1 - cos(-90°)) = -1` instead of `0`.  (The repository's own
test `test_stereographic_antipode` asserts `(0, 0)` at the projection point
`{47.6609, -122.2816}` and fails the same way.) -/
theorem C2_project_antipode_not_origin :
    StereographicProjection.project ⟨⟨45, 0⟩⟩ (LatLon.antipode ⟨45, 0⟩) =
      (⟨1, 0⟩ : Point ℝ) ∧
    StereographicProjection.project ⟨⟨45, 0⟩⟩ (LatLon.antipode ⟨45, 0⟩) ≠
      (⟨0, 0⟩ : Point ℝ) := by
  have ha : LatLon.antipode ⟨45, 0⟩ = ⟨-45, 180⟩ := by
    unfold LatLon.antipode
    norm_num [normalize_latitude_225, normalize_longitude_180]
  have hz : toRadians ((-45 : ℝ) - 45) = -(Real.pi / 2) := by
    unfold toRadians
    ring
  have haz : toRadians ((180 : ℝ) - 0) = Real.pi := by
    rw [show ((180 : ℝ) - 0) = 180 by norm_num, toRadians_180]
  have hproj : StereographicProjection.project ⟨⟨45, 0⟩⟩ (LatLon.antipode ⟨45, 0⟩) =
      (⟨1, 0⟩ : Point ℝ) := by
    rw [ha]
    simp only [StereographicProjection.project]
    rw [hz, haz]
    norm_num [Real.sin_neg, Real.cos_neg, Real.sin_pi_div_two, Real.cos_pi_div_two,
      Real.sin_pi, Real.cos_pi]
  refine ⟨hproj, ?_⟩
  rw [hproj]
  intro hcon
  have hx := congrArg Point.x hcon
  norm_num at hx

/-! ## Claim C3: the stereographic round trip south of the projection point -/

/-- C3 (failing evaluation): with the projection point `{47.6609, -122.2816}`
of the repository's own round-trip tests, projecting `{37.4096, -122.299}`
and unprojecting the result yields latitude `57.9122`, not the original
`37.4096`: `unproject` rebuilds the zenith from `r = hypot x y ≥ 0`, which
discards the sign of the projected radius for points south of the projection
point (the round trip centered at `{0, 0}` does hold, the zenith being
positive there). -/
theorem C3_roundtrip_latitude_wrong :
    (StereographicProjection.unproject ⟨⟨47.6609, -122.2816⟩⟩
      (StereographicProjection.project ⟨⟨47.6609, -122.2816⟩⟩
        ⟨37.4096, -122.299⟩)).latitude = 57.9122 ∧
    (57.9122 : ℝ) ≠ 37.4096 := by
  have hpi := Real.pi_pos
  have hz : toRadians ((37.4096 : ℝ) - 47.6609) = -toRadians 10.2513 := by
    rw [show (37.4096 : ℝ) - 47.6609 = -10.2513 by norm_num]
    unfold toRadians
    ring
  have hs_pos : 0 < toRadians 10.2513 := by
    unfold toRadians
    positivity
  have hs_lt : toRadians 10.2513 < Real.pi := by
    unfold toRadians
    linarith
  have hsin_pos : 0 < Real.sin (toRadians 10.2513) :=
    Real.sin_pos_of_pos_of_lt_pi hs_pos hs_lt
  have hcos_lt : Real.cos (toRadians 10.2513) < 1 := by
    have h1 : (0 : ℝ) ∈ Set.Icc 0 Real.pi := ⟨le_refl 0, le_of_lt hpi⟩
    have h2 : toRadians 10.2513 ∈ Set.Icc 0 Real.pi :=
      ⟨le_of_lt hs_pos, le_of_lt hs_lt⟩
    have := Real.strictAntiOn_cos h1 h2 hs_pos
    simpa [Real.cos_zero] using this
  have hdenom : 0 < 1 - Real.cos (toRadians 10.2513) := by linarith
  constructor
  · simp only [StereographicProjection.project, StereographicProjection.unproject]
    rw [hz]
    simp only [Real.sin_neg, Real.cos_neg]
    rw [hypot_scale_cos_sin, abs_div, abs_neg, abs_of_pos hsin_pos,
      abs_of_pos hdenom, two_atanDiv_inv_cot hs_pos hs_lt, toDegrees_toRadians,
      show (10.2513 : ℝ) + 47.6609 = 57.9122 by norm_num]
    exact normalize_latitude_id (by norm_num) (by norm_num)
  · norm_num

end Mapcore
